import Mathlib

/-!
Shallow embedding of the validated write pipeline of the CRM backend
(`crm/schema.py`, `crm/models.py`): the data model (Customer, Product, Order),
the four mutations (CreateCustomer, BulkCreateCustomers, CreateProduct,
CreateOrder) and the three ordered query resolvers.

Conventions of the embedding:
- Database state is an explicit `DB` record threaded through every operation.
- Decimal prices with fixed 2-digit precision are represented exactly as
  integer numbers of cents (`Int`); sums of prices are exact integer sums.
- Timestamps are opaque `Nat` values; the ambient clock (`django.utils.timezone.now`)
  is an explicit `now` argument.
- GraphQL `ID` scalars arrive as strings; the ORM's primary-key coercion
  (Python `int(...)`) is `parseId`, and a coercion failure raises (`PyError.valueError`),
  exactly as an uncaught `ValueError` does in the source.
- Operations that can raise a Python exception return `Except PyError _`;
  an `Except.error` value is an exception propagating out of the mutation,
  an `Except.ok` value is the GraphQL payload actually returned.
-/

/-- Python/Django exceptions that can escape the pipeline uncaught:
`ValueError` (pk coercion failure; many-to-many access on an unsaved row),
`IntegrityError` (storage uniqueness constraint violated at insert),
`FieldError` (`order_by` keyword naming a nonexistent column). -/
inductive PyError where
  | valueError
  | integrityError
  | fieldError
deriving Repr, DecidableEq

/-- Row of the `Customer` table (`crm/models.py`): `created_at` is
`auto_now_add`, assigned from the clock at insert. -/
structure Customer where
  id : Int
  name : String
  email : String
  phone : String
  created_at : Nat
deriving Repr, DecidableEq

/-- Row of the `Product` table (`crm/models.py`): `price` is a
`DecimalField(max_digits=10, decimal_places=2)`, held exactly in cents.
The model declares no `created_at` column. -/
structure Product where
  id : Int
  name : String
  price : Int
  stock : Int
deriving Repr, DecidableEq

/-- Row (or in-memory instance) of the `Order` table (`crm/models.py`):
`pk = none` is an instance not yet inserted. `order_date` is declared
`auto_now_add=True`. The model declares no `created_at` column. -/
structure OrderRow where
  pk : Option Int
  customer_id : Int
  total_amount : Int
  order_date : Nat
deriving Repr, DecidableEq

/-- The relational store: the three tables, the order/product association
rows (many-to-many through table), and the auto-increment counters. -/
structure DB where
  customers : List Customer
  products : List Product
  orders : List OrderRow
  order_products : List (Int × Int)
  next_customer_id : Int
  next_product_id : Int
  next_order_id : Int
deriving Repr, DecidableEq

def emptyDB : DB :=
  { customers := [], products := [], orders := [], order_products := []
  , next_customer_id := 1, next_product_id := 1, next_order_id := 1 }

/-- Primary-key coercion of a GraphQL `ID` string, as Python `int(s)` /
Django's pk field coercion: an optional sign followed by decimal digits;
anything else raises `ValueError`. -/
def parseId (s : String) : Option Int :=
  match s.data with
  | '+' :: rest =>
    if !rest.isEmpty && rest.all Char.isDigit then some (Int.ofNat (digitsToNat rest)) else none
  | '-' :: rest =>
    if !rest.isEmpty && rest.all Char.isDigit then some (-(Int.ofNat (digitsToNat rest))) else none
  | cs =>
    if !cs.isEmpty && cs.all Char.isDigit then some (Int.ofNat (digitsToNat cs)) else none
where
  digitsToNat (cs : List Char) : Nat :=
    cs.foldl (fun n c => 10 * n + (c.toNat - 48)) 0

/-- `PHONE_REGEX = re.compile(r"^(\+?\d[\d\-]{6,}\d)$")` — character class
`[\d\-]`: a digit or a hyphen. -/
def isDigitOrHyphen (c : Char) : Bool :=
  c.isDigit || c == '-'

/-- Matches `\d[\d\-]{6,}\d` against a whole character list: a digit, then at
least six digits/hyphens, then a digit (the anchored regex with greedy
backtracking accepts exactly these lists). -/
def phoneCore (cs : List Char) : Bool :=
  match cs with
  | [] => false
  | c :: rest =>
    c.isDigit && decide (7 ≤ rest.length) && rest.dropLast.all isDigitOrHyphen &&
      (match rest.getLast? with
       | some d => d.isDigit
       | none => false)

/-- Matches `\+?\d[\d\-]{6,}\d` against a whole character list: a leading
`'+'` must be consumed by `\+?` (it cannot match `\d`). -/
def phoneGroup (cs : List Char) : Bool :=
  match cs with
  | '+' :: rest => phoneCore rest
  | cs => phoneCore cs

/-- `PHONE_REGEX.match(s)` as a Boolean: the pattern is anchored with
`^...$`, and Python's `$` (without `re.MULTILINE`) also matches just before
a single newline at the end of the string. -/
def PHONE_REGEX_match (s : String) : Bool :=
  phoneGroup s.data || (s.data.getLast? == some '\n' && phoneGroup s.data.dropLast)

/-- The phone guard of the mutations, `if item.phone and not PHONE_REGEX.match(item.phone)`:
`True` exactly when a phone was provided, is non-empty (Python truthiness) and
fails the regex. -/
def phoneFailsCheck (phone : Option String) : Bool :=
  match phone with
  | none => false
  | some p => !p.isEmpty && !(PHONE_REGEX_match p)

/-- `Customer.objects.filter(email=email).exists()` — exact (case-sensitive)
match against the stored rows. -/
def DB.emailExists (db : DB) (email : String) : Bool :=
  db.customers.any (fun c => c.email == email)

/-- Successful path of `Customer.objects.create(...)` / `Customer(...).save()`:
insert a row with the next server-assigned id and `created_at` from the clock
(`auto_now_add`). The storage uniqueness constraint on `email` is modelled
separately by `DB.customerInsert`; every call site of this function has just
checked on the same state that the email is absent, which by
`customerInsert_ok_of_not_exists` makes the unchecked insert equivalent. -/
def DB.customerCreate (db : DB) (name email phone : String) (now : Nat) : DB × Customer :=
  let c : Customer :=
    { id := db.next_customer_id, name := name, email := email, phone := phone, created_at := now }
  ({ db with customers := db.customers ++ [c], next_customer_id := db.next_customer_id + 1 }, c)

/-- The authoritative storage insert: the database enforces `email` uniqueness
at commit, raising `IntegrityError` when the constraint is violated. -/
def DB.customerInsert (db : DB) (name email phone : String) (now : Nat) :
    Except PyError (DB × Customer) :=
  if db.emailExists email then Except.error PyError.integrityError
  else Except.ok (db.customerCreate name email phone now)

/-- `CustomerInput` (graphene): `name` and `email` required (non-null, but
possibly empty strings), `phone` optional. -/
structure CustomerInput where
  name : String
  email : String
  phone : Option String
deriving Repr, DecidableEq

structure CreateCustomerPayload where
  customer : Option Customer
  message : Option String
  errors : List String
deriving Repr, DecidableEq

/-- `CreateCustomer.mutate`: pre-check email uniqueness and phone format;
on any failure return the errors without writing; otherwise insert and
return the entity with a success message. -/
def CreateCustomer.mutate (db : DB) (input : CustomerInput) (now : Nat) :
    CreateCustomerPayload × DB :=
  let errs : List String :=
    (if db.emailExists input.email then ["Email already exists"] else []) ++
    (if phoneFailsCheck input.phone then ["Invalid phone format"] else [])
  if !errs.isEmpty then
    ({ customer := none, message := none, errors := errs }, db)
  else
    let (db2, c) := db.customerCreate input.name input.email (input.phone.getD "") now
    ({ customer := some c, message := some "Customer created", errors := [] }, db2)

/-- `CreateCustomer.mutate` under the racing schedule of spec §5: the
uniqueness pre-check reads the state `dbCheck` seen before a concurrent
transaction commits, while the insert executes against the state `dbWrite`
after that commit. The mutation body is the same source code: no handler
surrounds `Customer.objects.create`, so a constraint violation surfaced at
insert time propagates as an uncaught `IntegrityError`. -/
def CreateCustomer.mutateRaced (dbCheck dbWrite : DB) (input : CustomerInput) (now : Nat) :
    Except PyError (CreateCustomerPayload × DB) :=
  let errs : List String :=
    (if dbCheck.emailExists input.email then ["Email already exists"] else []) ++
    (if phoneFailsCheck input.phone then ["Invalid phone format"] else [])
  if !errs.isEmpty then
    Except.ok ({ customer := none, message := none, errors := errs }, dbWrite)
  else do
    let (db2, c) ← dbWrite.customerInsert input.name input.email (input.phone.getD "") now
    Except.ok ({ customer := some c, message := some "Customer created", errors := [] }, db2)

/-- Coherence of the two insert models: when the email is absent the
constraint-checked insert succeeds and coincides with the plain insert. -/
theorem customerInsert_ok_of_not_exists (db : DB) (name email phone : String) (now : Nat)
    (h : db.emailExists email = false) :
    db.customerInsert name email phone now = Except.ok (db.customerCreate name email phone now) := by
  simp [DB.customerInsert, h]

/-- Per-row validation of `BulkCreateCustomers.mutate`, in source order:
email uniqueness against the current state, phone format, required name,
required email; `idx` is the 1-based row index used in the messages. -/
def bulkRowErrors (db : DB) (idx : Nat) (item : CustomerInput) : List String :=
  (if db.emailExists item.email then [s!"Row {idx}: Email already exists"] else []) ++
  (if phoneFailsCheck item.phone then [s!"Row {idx}: Invalid phone format"] else []) ++
  (if item.name == "" then [s!"Row {idx}: Name is required"] else []) ++
  (if item.email == "" then [s!"Row {idx}: Email is required"] else [])

/-- The row loop of `BulkCreateCustomers.mutate`: rows in input order against
the evolving state (a row's `save()` is visible to every later row's
uniqueness check — all inside one `transaction.atomic()`). Returns the final
state, the created customers in creation order, and one `(index, messages)`
entry per skipped row (`messages` nonempty), in row order. -/
def BulkCreateCustomers.go (db : DB) (rows : List CustomerInput) (idx : Nat) (now : Nat) :
    DB × List Customer × List (Nat × List String) :=
  match rows with
  | [] => (db, [], [])
  | item :: rest =>
    let errs := bulkRowErrors db idx item
    if errs.isEmpty then
      let r := db.customerCreate item.name item.email (item.phone.getD "") now
      let rec2 := BulkCreateCustomers.go r.1 rest (idx + 1) now
      (rec2.1, r.2 :: rec2.2.1, rec2.2.2)
    else
      let rec2 := BulkCreateCustomers.go db rest (idx + 1) now
      (rec2.1, rec2.2.1, (idx, errs) :: rec2.2.2)

structure BulkCreateCustomersPayload where
  customers : List Customer
  errors : List String
deriving Repr, DecidableEq

/-- `BulkCreateCustomers.mutate`: process the rows from index 1, commit
unconditionally, and return the created entities plus the flat error list. -/
def BulkCreateCustomers.mutate (db : DB) (rows : List CustomerInput) (now : Nat) :
    BulkCreateCustomersPayload × DB :=
  let (db2, cs, es) := BulkCreateCustomers.go db rows 1 now
  ({ customers := cs, errors := (es.map Prod.snd).flatten }, db2)

/-- `ProductInput` (graphene): required name and decimal price (cents),
optional stock with `default_value=0`. -/
structure ProductInput where
  name : String
  price : Int
  stock : Option Int
deriving Repr, DecidableEq

structure CreateProductPayload where
  product : Option Product
  errors : List String
deriving Repr, DecidableEq

/-- `CreateProduct.mutate`: the price is already an exact decimal (the
`Decimal(str(input.price))` round-trip of a finite decimal cannot fail),
checked strictly positive; `stock or 0` checked non-negative. -/
def CreateProduct.mutate (db : DB) (input : ProductInput) : CreateProductPayload × DB :=
  let stock := input.stock.getD 0
  let errors : List String :=
    (if input.price ≤ 0 then ["Price must be positive"] else []) ++
    (if stock < 0 then ["Stock cannot be negative"] else [])
  if !errors.isEmpty then
    ({ product := none, errors := errors }, db)
  else
    let p : Product :=
      { id := db.next_product_id, name := input.name, price := input.price, stock := stock }
    ({ product := some p, errors := [] },
     { db with products := db.products ++ [p], next_product_id := db.next_product_id + 1 })

/-- Exact integer sum (Python `sum`, a left fold from `0`) of the prices of a
list of products; prices are exact cents, so the sum is exact. -/
def sumPrices (ps : List Product) : Int :=
  ps.foldl (fun t p => t + p.price) 0

/-- `self.products.all()` on an `Order` instance: Django raises `ValueError`
when the many-to-many manager is accessed on an instance whose primary key is
not yet set ("needs to have a value for field id before this many-to-many
relationship can be used"); on a saved row it reads the association rows. -/
def OrderRow.productsAll (o : OrderRow) (db : DB) : Except PyError (List Product) :=
  match o.pk with
  | none => Except.error PyError.valueError
  | some pk => Except.ok (db.products.filter (fun p => db.order_products.contains (pk, p.id)))

/-- `auto_now_add=True` on `Order.order_date`: on insert the column is filled
from the clock and any value assigned to the instance is discarded. -/
def orderDateOnInsert (_assigned : Nat) (now : Nat) : Nat :=
  now

/-- `models.Model.save` (the base class): insert with a fresh primary key when
`pk` is unset — filling `auto_now_add` columns from the clock — otherwise
update the stored row in place. -/
def OrderRow.superSave (o : OrderRow) (db : DB) (now : Nat) : DB × OrderRow :=
  match o.pk with
  | none =>
    let saved : OrderRow :=
      { o with pk := some db.next_order_id,
               order_date := orderDateOnInsert o.order_date now }
    ({ db with orders := db.orders ++ [saved], next_order_id := db.next_order_id + 1 }, saved)
  | some pk =>
    ({ db with orders := db.orders.map (fun r => if r.pk == some pk then o else r) }, o)

/-- The overridden `Order.save` (`crm/models.py`): when the instance has no
primary key yet, auto-calculate `total_amount` as the sum of the prices of
`self.products.all()` — an access that raises on an unsaved instance — then
delegate to the base `save`. -/
def OrderRow.save (o : OrderRow) (db : DB) (now : Nat) : Except PyError (DB × OrderRow) := do
  let o2 ←
    if o.pk.isNone then do
      let prods ← o.productsAll db
      pure { o with total_amount := sumPrices prods }
    else
      pure o
  pure (o2.superSave db now)

/-- `Order.objects.create(customer=..., order_date=...)`: instantiate with no
primary key and call the (overridden) `save`. -/
def orderObjectsCreate (db : DB) (customerId : Int) (orderDate : Nat) (now : Nat) :
    Except PyError (DB × OrderRow) :=
  OrderRow.save { pk := none, customer_id := customerId, total_amount := 0, order_date := orderDate } db now

/-- `order.products.set(products)`: replace the association rows of the order
with one row per listed product (raises on an unsaved instance). -/
def orderProductsSet (db : DB) (o : OrderRow) (ps : List Product) : Except PyError DB :=
  match o.pk with
  | none => Except.error PyError.valueError
  | some pk =>
    Except.ok { db with order_products :=
      db.order_products.filter (fun ab => ab.1 != pk) ++ ps.map (fun p => (pk, p.id)) }

/-- `list(Product.objects.filter(pk__in=product_ids))`: coerce every supplied
id (raising `ValueError` on a malformed one, as the ORM does when the queryset
is evaluated) and return the matching table rows, each at most once, in table
order. -/
def DB.productsByPkIn (db : DB) (productIds : List String) : Except PyError (List Product) := do
  let ids ← productIds.mapM (fun s =>
    match parseId s with
    | some n => Except.ok n
    | none => Except.error PyError.valueError)
  Except.ok (db.products.filter (fun p => ids.contains p.id))

/-- Ascending sort of integer ids, Python `sorted`. -/
def sortedAsc (l : List Int) : List Int :=
  List.insertionSort (fun a b => a ≤ b) l

/-- The single missing-ids failure message of `CreateOrder.mutate`:
`f"Invalid product ID(s): {', '.join(map(str, sorted(missing)))}"`. -/
def invalidProductIdsMessage (missing : List Int) : String :=
  "Invalid product ID(s): " ++ String.intercalate ", " ((sortedAsc missing).map toString)

structure CreateOrderPayload where
  order : Option OrderRow
  errors : List String
deriving Repr, DecidableEq

/-- `CreateOrder.mutate`: resolve the customer (only `DoesNotExist` is caught;
a malformed id raises), require a non-empty product list, resolve the products
and short-circuit on missing ids, then — inside `transaction.atomic()` —
create the order row, set the associations, and store the computed total. -/
def CreateOrder.mutate (db : DB) (customerId : String) (productIds : List String)
    (orderDate : Option Nat) (now : Nat) : Except PyError (CreateOrderPayload × DB) := do
  match parseId customerId with
  | none => Except.error PyError.valueError
  | some cid =>
    match db.customers.find? (fun c => c.id == cid) with
    | none => Except.ok ({ order := none, errors := ["Invalid customer ID"] }, db)
    | some customer =>
      if productIds.isEmpty then
        Except.ok ({ order := none, errors := ["At least one product must be provided"] }, db)
      else do
        let products ← db.productsByPkIn productIds
        let requested := (productIds.filterMap parseId).dedup
        let missing := requested.filter (fun i => !(products.any (fun p => p.id == i)))
        if !missing.isEmpty then
          Except.ok ({ order := none, errors := [invalidProductIdsMessage missing] }, db)
        else do
          let od := orderDate.getD now
          let (db2, order) ← orderObjectsCreate db customer.id od now
          let db3 ← orderProductsSet db2 order products
          let total := sumPrices products
          let order2 := { order with total_amount := total }
          let (db4, order3) ← OrderRow.save order2 db3 now
          Except.ok ({ order := some order3, errors := [] }, db4)

def ALLOWED_CUSTOMER_ORDER_FIELDS : List String :=
  ["name", "-name", "email", "-email", "created_at", "-created_at"]

def ALLOWED_PRODUCT_ORDER_FIELDS : List String :=
  ["name", "-name", "price", "-price", "stock", "-stock", "created_at", "-created_at"]

def ALLOWED_ORDER_ORDER_FIELDS : List String :=
  ["order_date", "-order_date", "total_amount", "-total_amount", "created_at", "-created_at"]

/-- Split an `order_by` value into its descending marker and field name. -/
def splitOrderKey (ob : String) : Bool × String :=
  match ob.data with
  | '-' :: rest => (true, String.mk rest)
  | _ => (false, ob)

/-- Sort rows by a key, ascending or descending (`queryset.order_by`). -/
def sortByKey {α κ : Type} [LinearOrder κ] (key : α → κ) (desc : Bool) (l : List α) : List α :=
  if desc then List.insertionSort (fun a b => key b ≤ key a) l
  else List.insertionSort (fun a b => key a ≤ key b) l

/-- `queryset.order_by(ob)` on `Customer`: the model has `name`, `email` and
`created_at` columns (every allow-listed field exists). A keyword naming no
column would raise `FieldError`; no allow-listed customer value does. -/
def customersOrderBy (ob : String) (rows : List Customer) : Except PyError (List Customer) :=
  let (desc, field) := splitOrderKey ob
  if field == "name" then Except.ok (sortByKey (fun c => c.name) desc rows)
  else if field == "email" then Except.ok (sortByKey (fun c => c.email) desc rows)
  else if field == "created_at" then Except.ok (sortByKey (fun c => c.created_at) desc rows)
  else Except.error PyError.fieldError

/-- `queryset.order_by(ob)` on `Product`: the model declares only `name`,
`price` and `stock` (no `created_at` column), so `created_at` — although
allow-listed — raises `FieldError` when the queryset is evaluated. -/
def productsOrderBy (ob : String) (rows : List Product) : Except PyError (List Product) :=
  let (desc, field) := splitOrderKey ob
  if field == "name" then Except.ok (sortByKey (fun p => p.name) desc rows)
  else if field == "price" then Except.ok (sortByKey (fun p => p.price) desc rows)
  else if field == "stock" then Except.ok (sortByKey (fun p => p.stock) desc rows)
  else Except.error PyError.fieldError

/-- `queryset.order_by(ob)` on `Order`: the model declares only `order_date`
and `total_amount` (plus the relations; no `created_at` column), so
`created_at` — although allow-listed — raises `FieldError`. -/
def ordersOrderBy (ob : String) (rows : List OrderRow) : Except PyError (List OrderRow) :=
  let (desc, field) := splitOrderKey ob
  if field == "order_date" then Except.ok (sortByKey (fun o => o.order_date) desc rows)
  else if field == "total_amount" then Except.ok (sortByKey (fun o => o.total_amount) desc rows)
  else Except.error PyError.fieldError

/-- `Query.resolve_all_customers`: apply `order_by` only when the value is in
the allow-list, otherwise return the table unordered. -/
def Query.resolve_all_customers (db : DB) (orderBy : Option String) : Except PyError (List Customer) :=
  match orderBy with
  | some ob =>
    if ALLOWED_CUSTOMER_ORDER_FIELDS.contains ob then customersOrderBy ob db.customers
    else Except.ok db.customers
  | none => Except.ok db.customers

/-- `Query.resolve_all_products`. -/
def Query.resolve_all_products (db : DB) (orderBy : Option String) : Except PyError (List Product) :=
  match orderBy with
  | some ob =>
    if ALLOWED_PRODUCT_ORDER_FIELDS.contains ob then productsOrderBy ob db.products
    else Except.ok db.products
  | none => Except.ok db.products

/-- `Query.resolve_all_orders` (the `.distinct()` of the source is the
identity on the id-distinct table rows). -/
def Query.resolve_all_orders (db : DB) (orderBy : Option String) : Except PyError (List OrderRow) :=
  match orderBy with
  | some ob =>
    if ALLOWED_ORDER_ORDER_FIELDS.contains ob then ordersOrderBy ob db.orders
    else Except.ok db.orders
  | none => Except.ok db.orders

/-! Concrete fixtures: one stored customer and two stored products with
prices 10.00 and 5.50 (1000 and 550 cents). -/

def aliceRow : Customer :=
  { id := 1, name := "Alice", email := "alice@example.com", phone := "", created_at := 0 }

def laptopRow : Product :=
  { id := 1, name := "Laptop", price := 1000, stock := 5 }

def speakerRow : Product :=
  { id := 2, name := "Speaker", price := 550, stock := 7 }

def storeDB : DB :=
  { emptyDB with
    customers := [aliceRow],
    products := [laptopRow, speakerRow],
    next_customer_id := 2,
    next_product_id := 3 }

/-- Claim C1: the claim states that a `createOrder` call with an existing
customer and resolvable products stores an order whose `total_amount` is the
exact decimal sum of the product prices (10.00 + 5.50 = 15.50). The code
violates it: `Order.objects.create` runs the overridden `Order.save` on an
instance with no primary key, whose `self.products.all()` access raises
`ValueError`, so the call raises and no order is ever created — even though
the resolution and summation steps would have produced the exact total
1550 cents. -/
theorem C1_createOrder_crashes_before_storing_total :
    storeDB.productsByPkIn ["1", "2"] = Except.ok [laptopRow, speakerRow] ∧
    sumPrices [laptopRow, speakerRow] = 1550 ∧
    CreateOrder.mutate storeDB "1" ["1", "2"] none 99 = Except.error PyError.valueError :=
  ⟨rfl, rfl, rfl⟩

/-- Claim C3: the claim states that a supplied order timestamp is stored and
only an absent one defaults to the current time. The code violates it twice:
`Order.order_date` is declared `auto_now_add=True`, so on insert the column is
always filled from the clock and the supplied value is discarded; and the
creation call raises `ValueError` before any row is inserted at all. -/
theorem C3_supplied_order_date_is_never_stored :
    (∀ assigned now, orderDateOnInsert assigned now = now) ∧
    CreateOrder.mutate storeDB "1" ["1", "2"] (some 7) 99 = Except.error PyError.valueError :=
  ⟨fun _ _ => rfl, rfl⟩

/-- Claim C10: the claim states that a duplicated product id yields one
association row per distinct product and a total counting each price once.
The resolution layer does deduplicate — `filter(pk__in=[1,1])` returns the
row once, and the summed total would count its price once — but the claim's
"the call succeeds" is violated: the call raises `ValueError` inside
`Order.objects.create` before any row is written. -/
theorem C10_duplicate_ids_deduplicated_but_call_raises :
    storeDB.productsByPkIn ["1", "1"] = Except.ok [laptopRow] ∧
    sumPrices [laptopRow] = 1000 ∧
    CreateOrder.mutate storeDB "1" ["1", "1"] none 99 = Except.error PyError.valueError :=
  ⟨rfl, rfl, rfl⟩

/-- State holding the racing transaction's committed customer for claim C4. -/
def racedDB : DB :=
  { emptyDB with
    customers := [{ id := 9, name := "Zoe", email := "taken@x.com", phone := "", created_at := 0 }],
    next_customer_id := 10 }

/-- Claim C4: the claim states that a uniqueness violation surfaced by the
storage layer at insert time is translated into the same
"Email already exists" failure. The code violates it: `CreateCustomer.mutate`
has no handler around `Customer.objects.create`, so under the §5 racing
schedule — the pre-check reads a state without the email, the insert runs
against a state where a concurrent commit has taken it — the
`IntegrityError` propagates to the caller instead of being returned in
`errors`. -/
theorem C4_commit_time_conflict_propagates_unhandled :
    emptyDB.emailExists "taken@x.com" = false ∧
    racedDB.emailExists "taken@x.com" = true ∧
    CreateCustomer.mutateRaced emptyDB racedDB
      { name := "Ann", email := "taken@x.com", phone := none } 3 =
      Except.error PyError.integrityError :=
  ⟨rfl, rfl, rfl⟩

/-- Claim C8 counterexample: `createCustomer` accepts and stores the empty
name — the GraphQL non-null typing prevents an absent name, not an empty one,
and `CreateCustomer.mutate` checks only email uniqueness and phone format. -/
theorem C8_counterexample_empty_name_stored :
    (CreateCustomer.mutate emptyDB { name := "", email := "x@y.z", phone := none } 3).1.customer =
      some { id := 1, name := "", email := "x@y.z", phone := "", created_at := 3 } ∧
    (CreateCustomer.mutate emptyDB { name := "", email := "x@y.z", phone := none } 3).2.customers =
      [{ id := 1, name := "", email := "x@y.z", phone := "", created_at := 3 }] :=
  ⟨rfl, rfl⟩

/-- The per-row validation accumulates no message exactly when all four
checks pass. -/
theorem bulkRowErrors_isEmpty_iff (db : DB) (idx : Nat) (item : CustomerInput) :
    (bulkRowErrors db idx item).isEmpty = true ↔
      db.emailExists item.email = false ∧ phoneFailsCheck item.phone = false ∧
        (item.name == "") = false ∧ (item.email == "") = false := by
  unfold bulkRowErrors
  cases h1 : db.emailExists item.email <;>
    cases h2 : phoneFailsCheck item.phone <;>
      cases h3 : item.name == "" <;>
        cases h4 : item.email == "" <;> simp

/-- Every customer created by the bulk row loop passed the required-name
check, whatever the starting state and index. -/
theorem bulk_go_created_names (rows : List CustomerInput) :
    ∀ db idx now c, c ∈ (BulkCreateCustomers.go db rows idx now).2.1 → c.name ≠ "" := by
  induction rows with
  | nil =>
    intro db idx now c h
    simp [BulkCreateCustomers.go] at h
  | cons item rest ih =>
    intro db idx now c h
    by_cases hE : (bulkRowErrors db idx item).isEmpty = true
    · rw [BulkCreateCustomers.go] at h
      simp only [hE, if_true] at h
      simp only [DB.customerCreate] at h
      rcases List.mem_cons.mp h with hc | hc
      · subst hc
        have := (bulkRowErrors_isEmpty_iff db idx item).mp hE
        simpa using this.2.2.1
      · exact ih _ _ _ _ hc
    · rw [BulkCreateCustomers.go] at h
      simp only [hE, if_false, Bool.false_eq_true] at h
      exact ih _ _ _ _ h

/-- Claim C8 as amended: every customer written by `bulkCreateCustomers` has
a non-empty name (the row check rejects empty names), while `createCustomer`
stores the caller-supplied name verbatim — including the empty string — so
the non-empty-name invariant holds for `createCustomer` only when its callers
supply non-empty names. -/
theorem C8_amended_name_invariant :
    (∀ db rows now c, c ∈ (BulkCreateCustomers.mutate db rows now).1.customers → c.name ≠ "") ∧
    (∀ db input now c,
      (CreateCustomer.mutate db input now).1.customer = some c → c.name = input.name) := by
  constructor
  · intro db rows now c h
    exact bulk_go_created_names rows db 1 now c h
  · intro db input now c h
    unfold CreateCustomer.mutate at h
    by_cases hE : (((if db.emailExists input.email then ["Email already exists"] else []) ++
        (if phoneFailsCheck input.phone then ["Invalid phone format"] else [])).isEmpty) = true
    · simp only [hE, Bool.not_true, if_false, Bool.false_eq_true, DB.customerCreate] at h
      cases h
      rfl
    · simp only [Bool.not_eq_true] at hE
      simp only [hE, Bool.not_false, if_true] at h
      cases h

/-- Claim C2 counterexample: two rows of one batch share an email that no
stored customer holds, yet — both rows having invalid phones — neither
succeeds and no "Email already exists" message is produced, refuting
"exactly one of them succeeds and at least one such error appears". -/
theorem C2_counterexample_invalid_duplicate_rows :
    BulkCreateCustomers.mutate emptyDB
      [{ name := "A", email := "dup@x.com", phone := some "123" },
       { name := "B", email := "dup@x.com", phone := some "123" }] 5 =
      ({ customers := [],
         errors := ["Row 1: Invalid phone format", "Row 2: Invalid phone format"] }, emptyDB) := by
  decide

/-- Claim C6 counterexample: a malformed (non-numeric) product reference is a
business-rule failure by the claim's own wording, but the code raises an
uncaught `ValueError` from the pk coercion instead of returning it in
`errors`. -/
theorem C6_counterexample_malformed_id_raises :
    CreateOrder.mutate storeDB "1" ["abc"] none 99 = Except.error PyError.valueError :=
  rfl

/-- The phone predicate exactly as claim C7 words it (a spec-side definition
kept for comparison with the code's `PHONE_REGEX_match`): strings consisting
of an optional leading '+', followed by digits and hyphens, of total length
at least 8, whose last character is a digit. -/
def claimPhonePred (s : String) : Bool :=
  let cs := s.data
  let rest :=
    match cs with
    | '+' :: r => r
    | r => r
  rest.all isDigitOrHyphen && decide (8 ≤ cs.length) &&
    (match cs.getLast? with
     | some c => c.isDigit
     | none => false)

/-- Claim C7 counterexample: "+1234567" satisfies the claim's description —
optional leading '+', then digits, total length 8, last character a digit —
but `PHONE_REGEX` rejects it (with a leading '+' the pattern needs at least
8 further characters), so the mutations reject it as an invalid phone. -/
theorem C7_counterexample_plus_then_seven_digits :
    claimPhonePred "+1234567" = true ∧
    PHONE_REGEX_match "+1234567" = false ∧
    phoneFailsCheck (some "+1234567") = true :=
  ⟨rfl, rfl, rfl⟩

/-- Claim C9 counterexample: "created_at" is allow-listed for both products
and orders, yet neither model declares a `created_at` column, so ordering by
it raises `FieldError` instead of ordering the result. -/
theorem C9_counterexample_created_at_allow_listed_but_errors :
    ("created_at" ∈ ALLOWED_PRODUCT_ORDER_FIELDS) ∧
    Query.resolve_all_products storeDB (some "created_at") = Except.error PyError.fieldError ∧
    ("created_at" ∈ ALLOWED_ORDER_ORDER_FIELDS) ∧
    Query.resolve_all_orders storeDB (some "created_at") = Except.error PyError.fieldError :=
  ⟨by decide, rfl, by decide, rfl⟩

/-- Failure path of `CreateOrder.mutate` when the (well-formed) customer id
matches no row: `Customer.DoesNotExist` is caught and returned as data. -/
theorem createOrder_invalid_customer (db : DB) (customerId : String) (productIds : List String)
    (orderDate : Option Nat) (now : Nat) (cid : Int)
    (hparse : parseId customerId = some cid)
    (hfind : db.customers.find? (fun c => c.id == cid) = none) :
    CreateOrder.mutate db customerId productIds orderDate now =
      Except.ok ({ order := none, errors := ["Invalid customer ID"] }, db) := by
  simp [CreateOrder.mutate, hparse, hfind]

/-- Failure path of `CreateOrder.mutate` on an empty product list. -/
theorem createOrder_empty_products (db : DB) (customerId : String) (productIds : List String)
    (orderDate : Option Nat) (now : Nat) (cid : Int) (customer : Customer)
    (hparse : parseId customerId = some cid)
    (hfind : db.customers.find? (fun c => c.id == cid) = some customer)
    (hempty : productIds.isEmpty = true) :
    CreateOrder.mutate db customerId productIds orderDate now =
      Except.ok ({ order := none, errors := ["At least one product must be provided"] }, db) := by
  simp [CreateOrder.mutate, hparse, hfind, hempty]

/-- Failure path of `CreateOrder.mutate` when well-formed product ids are
missing from the table: one message, no exception, state unchanged. -/
theorem createOrder_missing_ids (db : DB) (customerId : String) (productIds : List String)
    (orderDate : Option Nat) (now : Nat) (cid : Int) (customer : Customer)
    (products : List Product) (missing : List Int)
    (hparse : parseId customerId = some cid)
    (hfind : db.customers.find? (fun c => c.id == cid) = some customer)
    (hne : productIds.isEmpty = false)
    (hfetch : db.productsByPkIn productIds = Except.ok products)
    (hmiss : (productIds.filterMap parseId).dedup.filter
        (fun i => !(products.any (fun p => p.id == i))) = missing)
    (hnonempty : missing.isEmpty = false) :
    CreateOrder.mutate db customerId productIds orderDate now =
      Except.ok ({ order := none, errors := [invalidProductIdsMessage missing] }, db) := by
  simp [CreateOrder.mutate, hparse, hfind, hne, hfetch, hmiss, hnonempty,
    Except.instMonad, Except.bind]

/-- Failure path of `CreateCustomer.mutate`: any pre-check failure is
returned in `errors` with no entity and no write. -/
theorem createCustomer_failure_returns_errors (db : DB) (input : CustomerInput) (now : Nat)
    (h : db.emailExists input.email = true ∨ phoneFailsCheck input.phone = true) :
    (CreateCustomer.mutate db input now).1.customer = none ∧
    (CreateCustomer.mutate db input now).1.errors ≠ [] ∧
    (CreateCustomer.mutate db input now).2 = db := by
  unfold CreateCustomer.mutate
  rcases h with h | h
  · cases h2 : phoneFailsCheck input.phone <;> simp [h, h2]
  · cases h1 : db.emailExists input.email <;> simp [h, h1]

/-- Failure path of `CreateProduct.mutate`: any validation failure is
returned in `errors` with no entity and no write. -/
theorem createProduct_failure_returns_errors (db : DB) (input : ProductInput)
    (h : input.price ≤ 0 ∨ input.stock.getD 0 < 0) :
    (CreateProduct.mutate db input).1.product = none ∧
    (CreateProduct.mutate db input).1.errors ≠ [] ∧
    (CreateProduct.mutate db input).2 = db := by
  unfold CreateProduct.mutate
  rcases h with h | h
  · by_cases h2 : input.stock.getD 0 < 0 <;> simp [h, h2]
  · by_cases h1 : input.price ≤ 0 <;> simp [h, h1]

/-- Claim C5: a `createOrder` call with an existing customer, a non-empty and
well-formed product id list, and at least one id matching no product, returns
no order and exactly one error message built from the missing ids sorted
ascending and comma-joined, leaving the store untouched. -/
theorem C5_missing_ids_single_sorted_message (db : DB) (customerId : String)
    (productIds : List String) (orderDate : Option Nat) (now : Nat) (cid : Int)
    (customer : Customer) (products : List Product) (missing : List Int)
    (hparse : parseId customerId = some cid)
    (hfind : db.customers.find? (fun c => c.id == cid) = some customer)
    (hne : productIds.isEmpty = false)
    (hfetch : db.productsByPkIn productIds = Except.ok products)
    (hmiss : (productIds.filterMap parseId).dedup.filter
        (fun i => !(products.any (fun p => p.id == i))) = missing)
    (hnonempty : missing.isEmpty = false) :
    CreateOrder.mutate db customerId productIds orderDate now =
      Except.ok ({ order := none, errors := [invalidProductIdsMessage missing] }, db) ∧
    List.Sorted (fun a b : Int => a ≤ b) (sortedAsc missing) := by
  refine ⟨createOrder_missing_ids db customerId productIds orderDate now cid customer
    products missing hparse hfind hne hfetch hmiss hnonempty, ?_⟩
  exact List.sorted_insertionSort (fun a b : Int => a ≤ b) missing

/-- Claim C5 witness: product ids [1, 999] against a store holding product 1
only yield exactly `errors = ["Invalid product ID(s): 999"]` and no writes. -/
theorem C5_witness_ids_1_999 :
    CreateOrder.mutate storeDB "1" ["1", "999"] none 99 =
      Except.ok ({ order := none, errors := ["Invalid product ID(s): 999"] }, storeDB) ∧
    List.Sorted (fun a b : Int => a ≤ b) (sortedAsc [999]) := by
  have h := C5_missing_ids_single_sorted_message storeDB "1" ["1", "999"] none 99 1 aliceRow
    [laptopRow] [999] rfl rfl rfl rfl rfl rfl
  refine ⟨h.1.trans ?_, h.2⟩
  rfl

/-- Claim C6 as amended: business-rule failures expressed through well-formed
(numeric) references are returned in the `errors` field — nonexistent
customer, empty product list, nonexistent product ids, and all
`createCustomer` / `createProduct` validation failures — but a malformed
(non-numeric) customer or product reference raises an uncaught conversion
error instead (see the counterexample). -/
theorem C6_amended_wellformed_failures_in_errors :
    (∀ db customerId productIds orderDate now cid,
      parseId customerId = some cid →
      db.customers.find? (fun c => c.id == cid) = none →
      CreateOrder.mutate db customerId productIds orderDate now =
        Except.ok ({ order := none, errors := ["Invalid customer ID"] }, db)) ∧
    (∀ db customerId productIds orderDate now cid customer,
      parseId customerId = some cid →
      db.customers.find? (fun c => c.id == cid) = some customer →
      productIds.isEmpty = true →
      CreateOrder.mutate db customerId productIds orderDate now =
        Except.ok ({ order := none, errors := ["At least one product must be provided"] }, db)) ∧
    (∀ db customerId productIds orderDate now cid customer products missing,
      parseId customerId = some cid →
      db.customers.find? (fun c => c.id == cid) = some customer →
      productIds.isEmpty = false →
      db.productsByPkIn productIds = Except.ok products →
      (productIds.filterMap parseId).dedup.filter
        (fun i => !(products.any (fun p => p.id == i))) = missing →
      missing.isEmpty = false →
      CreateOrder.mutate db customerId productIds orderDate now =
        Except.ok ({ order := none, errors := [invalidProductIdsMessage missing] }, db)) ∧
    (∀ db input now,
      (db.emailExists input.email = true ∨ phoneFailsCheck input.phone = true) →
      (CreateCustomer.mutate db input now).1.customer = none ∧
      (CreateCustomer.mutate db input now).1.errors ≠ [] ∧
      (CreateCustomer.mutate db input now).2 = db) ∧
    (∀ db input,
      (input.price ≤ 0 ∨ input.stock.getD 0 < 0) →
      (CreateProduct.mutate db input).1.product = none ∧
      (CreateProduct.mutate db input).1.errors ≠ [] ∧
      (CreateProduct.mutate db input).2 = db) := by
  refine ⟨?_, ?_, ?_, ?_, ?_⟩
  · intro db customerId productIds orderDate now cid h1 h2
    exact createOrder_invalid_customer db customerId productIds orderDate now cid h1 h2
  · intro db customerId productIds orderDate now cid customer h1 h2 h3
    exact createOrder_empty_products db customerId productIds orderDate now cid customer h1 h2 h3
  · intro db customerId productIds orderDate now cid customer products missing h1 h2 h3 h4 h5 h6
    exact createOrder_missing_ids db customerId productIds orderDate now cid customer
      products missing h1 h2 h3 h4 h5 h6
  · intro db input now h
    exact createCustomer_failure_returns_errors db input now h
  · intro db input h
    exact createProduct_failure_returns_errors db input h

/-- Shape of the character lists matched by `\d[\d\-]{6,}\d`: a digit, at
least six digits/hyphens, and a final digit. -/
def phoneShape (cs : List Char) : Prop :=
  ∃ (d e : Char) (mid : List Char),
    cs = d :: (mid ++ [e]) ∧ d.isDigit = true ∧ e.isDigit = true ∧
      6 ≤ mid.length ∧ ∀ c ∈ mid, isDigitOrHyphen c = true

theorem phoneCore_iff (cs : List Char) : phoneCore cs = true ↔ phoneShape cs := by
  constructor
  · intro h
    match cs with
    | [] => simp [phoneCore] at h
    | c :: rest =>
      simp only [phoneCore, Bool.and_eq_true, decide_eq_true_eq] at h
      obtain ⟨⟨⟨hd, hlen⟩, hmid⟩, hlast⟩ := h
      have hne : rest ≠ [] := by
        intro hnil; rw [hnil] at hlen; simp at hlen
      refine ⟨c, rest.getLast hne, rest.dropLast, ?_, hd, ?_, ?_, ?_⟩
      · rw [List.dropLast_append_getLast hne]
      · rw [List.getLast?_eq_getLast rest hne] at hlast
        exact hlast
      · have := List.length_dropLast rest
        omega
      · exact List.all_eq_true.mp hmid
  · rintro ⟨d, e, mid, rfl, hd, he, hlen, hmid⟩
    simp only [phoneCore, Bool.and_eq_true, decide_eq_true_eq]
    refine ⟨⟨⟨hd, ?_⟩, ?_⟩, ?_⟩
    · simp; omega
    · rw [List.dropLast_concat]
      exact List.all_eq_true.mpr hmid
    · rw [List.getLast?_concat]
      exact he

theorem phoneGroup_not_plus (c : Char) (t : List Char) (hc : c ≠ '+') :
    phoneGroup (c :: t) = phoneCore (c :: t) := by
  unfold phoneGroup
  split
  · rename_i heq
    cases heq
    exact absurd rfl hc
  · rfl

theorem phoneShape_not_plus_head (t : List Char) : ¬ phoneShape ('+' :: t) := by
  rintro ⟨d, e, mid, heq, hd, -, -, -⟩
  cases heq
  simp [Char.isDigit] at hd

theorem phoneGroup_iff (cs : List Char) :
    phoneGroup cs = true ↔ ((∃ t, cs = '+' :: t ∧ phoneShape t) ∨ phoneShape cs) := by
  match cs with
  | [] =>
    constructor
    · intro h; simp [phoneGroup, phoneCore] at h
    · rintro (⟨t, heq, -⟩ | ⟨d, e, mid, heq, -⟩) <;> cases heq
  | c :: t =>
    by_cases hc : c = '+'
    · subst hc
      have hg : phoneGroup ('+' :: t) = phoneCore t := rfl
      rw [hg, phoneCore_iff]
      constructor
      · intro h; exact Or.inl ⟨t, rfl, h⟩
      · rintro (⟨t2, heq, h⟩ | h)
        · cases heq; exact h
        · exact absurd h (phoneShape_not_plus_head t)
    · rw [phoneGroup_not_plus c t hc, phoneCore_iff]
      constructor
      · intro h; exact Or.inr h
      · rintro (⟨t2, heq, -⟩ | h)
        · cases heq; exact absurd rfl hc
        · exact h

/-- The exact language of `PHONE_REGEX.match`: characters of the string
(allowing the single trailing newline Python's `$` tolerates) decompose as an
optional leading '+' followed by a digit, six or more digits/hyphens, and a
final digit. -/
def PhoneRegexShape (s : String) : Prop :=
  ∃ cs : List Char, (s.data = cs ∨ s.data = cs ++ ['\n']) ∧
    ((∃ t, cs = '+' :: t ∧ phoneShape t) ∨ phoneShape cs)

/-- Claim C7 as amended: the phone predicate accepts exactly the strings made
of an optional leading '+', then a digit, then at least six digits/hyphens,
then a final digit — i.e. at least 8 characters after the optional '+' (9 in
total when the '+' is present), with the first character after the optional
'+' required to be a digit, not a hyphen — optionally followed by one
trailing newline (Python `$`); and an absent or empty phone always passes
the mutations' guard. -/
theorem C7_amended_regex_characterization :
    (∀ s : String, PHONE_REGEX_match s = true ↔ PhoneRegexShape s) ∧
    phoneFailsCheck none = false ∧ phoneFailsCheck (some "") = false := by
  refine ⟨?_, rfl, rfl⟩
  intro s
  unfold PHONE_REGEX_match
  simp only [Bool.or_eq_true, Bool.and_eq_true, beq_iff_eq]
  constructor
  · rintro (h | ⟨h1, h2⟩)
    · exact ⟨s.data, Or.inl rfl, (phoneGroup_iff s.data).mp h⟩
    · have hne : s.data ≠ [] := by
        intro hnil; rw [hnil] at h1; simp at h1
      refine ⟨s.data.dropLast, Or.inr ?_, (phoneGroup_iff s.data.dropLast).mp h2⟩
      have hlast := List.getLast?_eq_getLast s.data hne
      rw [hlast] at h1
      have : s.data.getLast hne = '\n' := by injection h1
      conv_lhs => rw [← List.dropLast_append_getLast hne]
      rw [this]
  · rintro ⟨cs, heq | heq, hshape⟩
    · left
      rw [heq]
      exact (phoneGroup_iff cs).mpr hshape
    · right
      rw [heq]
      refine ⟨List.getLast?_concat cs, ?_⟩
      rw [List.dropLast_concat]
      exact (phoneGroup_iff cs).mpr hshape

/-- Bridge between list membership and the Boolean `contains` used by the
resolvers' allow-list test. -/
theorem contains_eq_false_of_not_mem {l : List String} {a : String} (h : a ∉ l) :
    l.contains a = false := by
  cases hc : l.contains a
  · rfl
  · exact absurd (List.mem_of_elem_eq_true hc) h

/-- `order_by` returns a permutation of the table rows. -/
theorem sortByKey_perm {α κ : Type} [LinearOrder κ] (key : α → κ) (desc : Bool) (l : List α) :
    (sortByKey key desc l).Perm l := by
  unfold sortByKey
  cases desc
  · simp only [Bool.false_eq_true, if_false]
    exact List.perm_insertionSort _ l
  · simp only [if_true]
    exact List.perm_insertionSort _ l

/-- Ascending `order_by` sorts by the key. -/
theorem sortByKey_sorted_asc {α κ : Type} [LinearOrder κ] (key : α → κ) (l : List α) :
    List.Sorted (fun a b => key a ≤ key b) (sortByKey key false l) := by
  unfold sortByKey
  simp only [Bool.false_eq_true, if_false]
  letI : IsTotal α (fun a b => key a ≤ key b) := ⟨fun a b => le_total (key a) (key b)⟩
  letI : IsTrans α (fun a b => key a ≤ key b) := ⟨fun a b c hab hbc => le_trans hab hbc⟩
  exact List.sorted_insertionSort _ l

/-- Descending `order_by` ('-field') sorts by the reversed key. -/
theorem sortByKey_sorted_desc {α κ : Type} [LinearOrder κ] (key : α → κ) (l : List α) :
    List.Sorted (fun a b => key b ≤ key a) (sortByKey key true l) := by
  unfold sortByKey
  simp only [if_true]
  letI : IsTotal α (fun a b => key b ≤ key a) := ⟨fun a b => le_total (key b) (key a)⟩
  letI : IsTrans α (fun a b => key b ≤ key a) := ⟨fun a b c hab hbc => le_trans hbc hab⟩
  exact List.sorted_insertionSort _ l

/-- Claim C9 as amended: an `orderBy` value outside the entity's allow-list
(or an absent one) leaves the result in the default order and never errors;
an allow-listed value orders the result by that field (ascending, or
descending with the '-' marker) whenever the field exists on the model —
every customer value, name/price/stock for products, order_date/total_amount
for orders — but the allow-listed values "created_at" and "-created_at" of products
and orders name a column neither model declares and raise `FieldError`
instead of ordering (see the counterexample). -/
theorem C9_amended_order_by_allow_list :
    (∀ (db : DB) (ob : String), ob ∉ ALLOWED_CUSTOMER_ORDER_FIELDS →
      Query.resolve_all_customers db (some ob) = Except.ok db.customers) ∧
    (∀ (db : DB) (ob : String), ob ∉ ALLOWED_PRODUCT_ORDER_FIELDS →
      Query.resolve_all_products db (some ob) = Except.ok db.products) ∧
    (∀ (db : DB) (ob : String), ob ∉ ALLOWED_ORDER_ORDER_FIELDS →
      Query.resolve_all_orders db (some ob) = Except.ok db.orders) ∧
    (∀ db : DB, Query.resolve_all_customers db none = Except.ok db.customers ∧
      Query.resolve_all_products db none = Except.ok db.products ∧
      Query.resolve_all_orders db none = Except.ok db.orders) ∧
    (∀ db : DB,
      (∃ l, Query.resolve_all_customers db (some "name") = Except.ok l ∧
        List.Sorted (fun a b => a.name ≤ b.name) l ∧ l.Perm db.customers) ∧
      (∃ l, Query.resolve_all_customers db (some "-name") = Except.ok l ∧
        List.Sorted (fun a b => b.name ≤ a.name) l ∧ l.Perm db.customers) ∧
      (∃ l, Query.resolve_all_customers db (some "email") = Except.ok l ∧
        List.Sorted (fun a b => a.email ≤ b.email) l ∧ l.Perm db.customers) ∧
      (∃ l, Query.resolve_all_customers db (some "-email") = Except.ok l ∧
        List.Sorted (fun a b => b.email ≤ a.email) l ∧ l.Perm db.customers) ∧
      (∃ l, Query.resolve_all_customers db (some "created_at") = Except.ok l ∧
        List.Sorted (fun a b => a.created_at ≤ b.created_at) l ∧ l.Perm db.customers) ∧
      (∃ l, Query.resolve_all_customers db (some "-created_at") = Except.ok l ∧
        List.Sorted (fun a b => b.created_at ≤ a.created_at) l ∧ l.Perm db.customers)) ∧
    (∀ db : DB,
      (∃ l, Query.resolve_all_products db (some "name") = Except.ok l ∧
        List.Sorted (fun a b => a.name ≤ b.name) l ∧ l.Perm db.products) ∧
      (∃ l, Query.resolve_all_products db (some "-name") = Except.ok l ∧
        List.Sorted (fun a b => b.name ≤ a.name) l ∧ l.Perm db.products) ∧
      (∃ l, Query.resolve_all_products db (some "price") = Except.ok l ∧
        List.Sorted (fun a b => a.price ≤ b.price) l ∧ l.Perm db.products) ∧
      (∃ l, Query.resolve_all_products db (some "-price") = Except.ok l ∧
        List.Sorted (fun a b => b.price ≤ a.price) l ∧ l.Perm db.products) ∧
      (∃ l, Query.resolve_all_products db (some "stock") = Except.ok l ∧
        List.Sorted (fun a b => a.stock ≤ b.stock) l ∧ l.Perm db.products) ∧
      (∃ l, Query.resolve_all_products db (some "-stock") = Except.ok l ∧
        List.Sorted (fun a b => b.stock ≤ a.stock) l ∧ l.Perm db.products)) ∧
    (∀ db : DB,
      (∃ l, Query.resolve_all_orders db (some "order_date") = Except.ok l ∧
        List.Sorted (fun a b => a.order_date ≤ b.order_date) l ∧ l.Perm db.orders) ∧
      (∃ l, Query.resolve_all_orders db (some "-order_date") = Except.ok l ∧
        List.Sorted (fun a b => b.order_date ≤ a.order_date) l ∧ l.Perm db.orders) ∧
      (∃ l, Query.resolve_all_orders db (some "total_amount") = Except.ok l ∧
        List.Sorted (fun a b => a.total_amount ≤ b.total_amount) l ∧ l.Perm db.orders) ∧
      (∃ l, Query.resolve_all_orders db (some "-total_amount") = Except.ok l ∧
        List.Sorted (fun a b => b.total_amount ≤ a.total_amount) l ∧ l.Perm db.orders)) ∧
    (∀ db : DB,
      Query.resolve_all_products db (some "created_at") = Except.error PyError.fieldError ∧
      Query.resolve_all_products db (some "-created_at") = Except.error PyError.fieldError ∧
      Query.resolve_all_orders db (some "created_at") = Except.error PyError.fieldError ∧
      Query.resolve_all_orders db (some "-created_at") = Except.error PyError.fieldError) := by
  refine ⟨?_, ?_, ?_, ?_, ?_, ?_, ?_, ?_⟩
  · intro db ob hob
    simp only [Query.resolve_all_customers]
    rw [contains_eq_false_of_not_mem hob]
    simp
  · intro db ob hob
    simp only [Query.resolve_all_products]
    rw [contains_eq_false_of_not_mem hob]
    simp
  · intro db ob hob
    simp only [Query.resolve_all_orders]
    rw [contains_eq_false_of_not_mem hob]
    simp
  · intro db
    exact ⟨rfl, rfl, rfl⟩
  · intro db
    refine ⟨⟨_, rfl, sortByKey_sorted_asc _ _, sortByKey_perm _ _ _⟩,
      ⟨_, rfl, sortByKey_sorted_desc _ _, sortByKey_perm _ _ _⟩,
      ⟨_, rfl, sortByKey_sorted_asc _ _, sortByKey_perm _ _ _⟩,
      ⟨_, rfl, sortByKey_sorted_desc _ _, sortByKey_perm _ _ _⟩,
      ⟨_, rfl, sortByKey_sorted_asc _ _, sortByKey_perm _ _ _⟩,
      ⟨_, rfl, sortByKey_sorted_desc _ _, sortByKey_perm _ _ _⟩⟩
  · intro db
    refine ⟨⟨_, rfl, sortByKey_sorted_asc _ _, sortByKey_perm _ _ _⟩,
      ⟨_, rfl, sortByKey_sorted_desc _ _, sortByKey_perm _ _ _⟩,
      ⟨_, rfl, sortByKey_sorted_asc _ _, sortByKey_perm _ _ _⟩,
      ⟨_, rfl, sortByKey_sorted_desc _ _, sortByKey_perm _ _ _⟩,
      ⟨_, rfl, sortByKey_sorted_asc _ _, sortByKey_perm _ _ _⟩,
      ⟨_, rfl, sortByKey_sorted_desc _ _, sortByKey_perm _ _ _⟩⟩
  · intro db
    refine ⟨⟨_, rfl, sortByKey_sorted_asc _ _, sortByKey_perm _ _ _⟩,
      ⟨_, rfl, sortByKey_sorted_desc _ _, sortByKey_perm _ _ _⟩,
      ⟨_, rfl, sortByKey_sorted_asc _ _, sortByKey_perm _ _ _⟩,
      ⟨_, rfl, sortByKey_sorted_desc _ _, sortByKey_perm _ _ _⟩⟩
  · intro db
    exact ⟨rfl, rfl, rfl, rfl⟩

/-- The row loop over a concatenation processes the first block, then the
second from the resulting state with the index advanced. -/
theorem bulk_go_append (xs : List CustomerInput) :
    ∀ (ys : List CustomerInput) (db : DB) (idx now : Nat),
    BulkCreateCustomers.go db (xs ++ ys) idx now =
      ((BulkCreateCustomers.go (BulkCreateCustomers.go db xs idx now).1 ys (idx + xs.length) now).1,
       (BulkCreateCustomers.go db xs idx now).2.1 ++
         (BulkCreateCustomers.go (BulkCreateCustomers.go db xs idx now).1 ys (idx + xs.length) now).2.1,
       (BulkCreateCustomers.go db xs idx now).2.2 ++
         (BulkCreateCustomers.go (BulkCreateCustomers.go db xs idx now).1 ys (idx + xs.length) now).2.2) := by
  induction xs with
  | nil =>
    intro ys db idx now
    simp [BulkCreateCustomers.go]
  | cons item rest ih =>
    intro ys db idx now
    have hidx : idx + (item :: rest).length = (idx + 1) + rest.length := by
      simp [List.length_cons]
      omega
    rw [hidx, List.cons_append]
    by_cases hE : (bulkRowErrors db idx item).isEmpty = true
    · simp only [BulkCreateCustomers.go, hE, if_true]
      rw [ih]
      rfl
    · simp only [BulkCreateCustomers.go, hE, Bool.false_eq_true, if_false]
      rw [ih]
      rfl

/-- A bulk row that passes every per-row check except possibly the email
uniqueness one. -/
def rowOtherwiseValid (item : CustomerInput) : Bool :=
  !phoneFailsCheck item.phone && item.name != "" && item.email != ""

/-- Inserting a customer adds exactly its email to the visible set. -/
theorem emailExists_customerCreate (db : DB) (n em ph : String) (now : Nat) (e : String) :
    ((db.customerCreate n em ph now).1).emailExists e = (db.emailExists e || (em == e)) := by
  simp [DB.customerCreate, DB.emailExists, List.any_append]

/-- Each input row is either created or contributes one skipped-row error
entry: created plus failing rows partition the batch. -/
theorem bulk_go_count (rows : List CustomerInput) :
    ∀ db idx now,
      (BulkCreateCustomers.go db rows idx now).2.1.length +
        (BulkCreateCustomers.go db rows idx now).2.2.length = rows.length := by
  induction rows with
  | nil => intro db idx now; simp [BulkCreateCustomers.go]
  | cons item rest ih =>
    intro db idx now
    by_cases hE : (bulkRowErrors db idx item).isEmpty = true
    · simp only [BulkCreateCustomers.go, hE, if_true, List.length_cons]
      have h := ih (db.customerCreate item.name item.email (item.phone.getD "") now).1 (idx + 1) now
      omega
    · simp only [BulkCreateCustomers.go, hE, Bool.false_eq_true, if_false, List.length_cons]
      have h := ih db (idx + 1) now
      omega

/-- Emails already visible stay visible through the row loop. -/
theorem bulk_go_email_mono (rows : List CustomerInput) :
    ∀ db idx now e, db.emailExists e = true →
      ((BulkCreateCustomers.go db rows idx now).1).emailExists e = true := by
  induction rows with
  | nil => intro db idx now e h; simpa [BulkCreateCustomers.go] using h
  | cons item rest ih =>
    intro db idx now e h
    by_cases hE : (bulkRowErrors db idx item).isEmpty = true
    · simp only [BulkCreateCustomers.go, hE, if_true]
      apply ih
      rw [emailExists_customerCreate]
      simp [h]
    · simp only [BulkCreateCustomers.go, hE, Bool.false_eq_true, if_false]
      exact ih db (idx + 1) now e h

/-- An email absent from the store and borne by no row of the batch is still
absent after the loop. -/
theorem bulk_go_email_fresh (rows : List CustomerInput) :
    ∀ db idx now e, db.emailExists e = false → (∀ r ∈ rows, r.email ≠ e) →
      ((BulkCreateCustomers.go db rows idx now).1).emailExists e = false := by
  induction rows with
  | nil => intro db idx now e h _; simpa [BulkCreateCustomers.go] using h
  | cons item rest ih =>
    intro db idx now e h hall
    by_cases hE : (bulkRowErrors db idx item).isEmpty = true
    · simp only [BulkCreateCustomers.go, hE, if_true]
      apply ih
      · rw [emailExists_customerCreate]
        have : item.email ≠ e := hall item (List.mem_cons_self item rest)
        simp [h, this]
      · intro r hr; exact hall r (List.mem_cons_of_mem item hr)
    · simp only [BulkCreateCustomers.go, hE, Bool.false_eq_true, if_false]
      exact ih db (idx + 1) now e h (fun r hr => hall r (List.mem_cons_of_mem item hr))

/-- Unfolding of `rowOtherwiseValid`. -/
theorem rowOtherwiseValid_components (item : CustomerInput) (h : rowOtherwiseValid item = true) :
    phoneFailsCheck item.phone = false ∧ (item.name == "") = false ∧ (item.email == "") = false := by
  simp only [rowOtherwiseValid, Bool.and_eq_true, Bool.not_eq_true', bne_iff_ne, ne_eq] at h
  refine ⟨h.1.1, ?_, ?_⟩
  · simpa using h.1.2
  · simpa using h.2

/-- After processing an otherwise-valid head row, its email is visible:
either the row was created, or it was skipped precisely because the email
already existed. -/
theorem bulk_go_valid_head_email (item : CustomerInput) (rest : List CustomerInput)
    (db : DB) (idx now : Nat) (hvalid : rowOtherwiseValid item = true) :
    ((BulkCreateCustomers.go db (item :: rest) idx now).1).emailExists item.email = true := by
  by_cases hE : (bulkRowErrors db idx item).isEmpty = true
  · simp only [BulkCreateCustomers.go, hE, if_true]
    apply bulk_go_email_mono
    rw [emailExists_customerCreate]
    simp
  · have hex : db.emailExists item.email = true := by
      rcases rowOtherwiseValid_components item hvalid with ⟨h1, h2, h3⟩
      by_contra hne
      rw [Bool.not_eq_true] at hne
      exact hE ((bulkRowErrors_isEmpty_iff db idx item).mpr ⟨hne, h1, h2, h3⟩)
    simp only [BulkCreateCustomers.go, hE, Bool.false_eq_true, if_false]
    exact bulk_go_email_mono rest db (idx + 1) now item.email hex

/-- A head row whose email is already visible is skipped with a
"Row idx: Email already exists" message among its errors, creating nothing. -/
theorem bulk_go_dup_head_reported (item : CustomerInput) (rest : List CustomerInput)
    (db : DB) (idx now : Nat) (hex : db.emailExists item.email = true) :
    (idx, bulkRowErrors db idx item) ∈ (BulkCreateCustomers.go db (item :: rest) idx now).2.2 ∧
    s!"Row {idx}: Email already exists" ∈ bulkRowErrors db idx item ∧
    (BulkCreateCustomers.go db (item :: rest) idx now).2.1 =
      (BulkCreateCustomers.go db rest (idx + 1) now).2.1 := by
  have hE : ¬ (bulkRowErrors db idx item).isEmpty = true := by
    intro h
    have := (bulkRowErrors_isEmpty_iff db idx item).mp h
    rw [this.1] at hex
    cases hex
  refine ⟨?_, ?_, ?_⟩
  · simp only [BulkCreateCustomers.go, hE, Bool.false_eq_true, if_false]
    exact List.mem_cons_self _ _
  · simp [bulkRowErrors, hex]
  · simp only [BulkCreateCustomers.go, hE, Bool.false_eq_true, if_false]

/-- Created rows carry emails that were absent at batch start, are visible at
batch end, and are pairwise distinct — the in-batch uniqueness invariant. -/
theorem bulk_go_created_emails (rows : List CustomerInput) :
    ∀ db idx now,
      (∀ c ∈ (BulkCreateCustomers.go db rows idx now).2.1,
        db.emailExists c.email = false ∧
          ((BulkCreateCustomers.go db rows idx now).1).emailExists c.email = true) ∧
      ((BulkCreateCustomers.go db rows idx now).2.1.map (fun c => c.email)).Nodup := by
  induction rows with
  | nil => intro db idx now; simp [BulkCreateCustomers.go]
  | cons item rest ih =>
    intro db idx now
    by_cases hE : (bulkRowErrors db idx item).isEmpty = true
    · have h1 : db.emailExists item.email = false :=
        ((bulkRowErrors_isEmpty_iff db idx item).mp hE).1
      have hr2email : (db.customerCreate item.name item.email (item.phone.getD "") now).2.email
          = item.email := rfl
      have hdb2mail : ((db.customerCreate item.name item.email (item.phone.getD "") now).1).emailExists
          item.email = true := by
        rw [emailExists_customerCreate]
        simp
      have ihh := ih (db.customerCreate item.name item.email (item.phone.getD "") now).1 (idx + 1) now
      constructor
      · intro c hc
        simp only [BulkCreateCustomers.go, hE, if_true] at hc
        rcases List.mem_cons.mp hc with hc0 | hc0
        · subst hc0
          rw [hr2email]
          refine ⟨h1, ?_⟩
          simp only [BulkCreateCustomers.go, hE, if_true]
          exact bulk_go_email_mono rest _ (idx + 1) now _ hdb2mail
        · have h2 := ihh.1 c hc0
          have hdbc : db.emailExists c.email = false := by
            have h3 := h2.1
            rw [emailExists_customerCreate] at h3
            exact (Bool.or_eq_false_iff.mp h3).1
          refine ⟨hdbc, ?_⟩
          simp only [BulkCreateCustomers.go, hE, if_true]
          exact h2.2
      · simp only [BulkCreateCustomers.go, hE, if_true, List.map_cons, List.nodup_cons]
        refine ⟨?_, ihh.2⟩
        intro hmem
        rcases List.mem_map.mp hmem with ⟨c, hc, hce⟩
        have h2 := ihh.1 c hc
        have h3 := h2.1
        rw [hce, hr2email] at h3
        rw [h3] at hdb2mail
        cases hdb2mail
    · simp only [BulkCreateCustomers.go, hE, Bool.false_eq_true, if_false]
      exact ih db (idx + 1) now

/-- With pairwise distinct emails, at most one row matches a given email. -/
theorem length_filter_email_le_one {cs : List Customer} {e : String}
    (h : (cs.map (fun c => c.email)).Nodup) :
    (cs.filter (fun c => c.email == e)).length ≤ 1 := by
  induction cs with
  | nil => simp
  | cons c rest ih =>
    simp only [List.map_cons, List.nodup_cons] at h
    by_cases hc : (c.email == e) = true
    · have hrest : rest.filter (fun c => c.email == e) = [] := by
        rw [List.filter_eq_nil_iff]
        intro a ha hae
        apply h.1
        rw [List.mem_map]
        refine ⟨a, ha, ?_⟩
        have h1 : a.email = e := by simpa using hae
        have h2 : c.email = e := by simpa using hc
        rw [h1, h2]
      simp [List.filter_cons, hc, hrest]
    · simp only [List.filter_cons, hc, if_false]
      exact ih h.2

/-- Claim C2 as amended: (a) in every batch, created customers plus rows with
at least one error account for every input row; (b) if rows i < j share an
email no stored customer holds and row i passes the phone/name/email checks,
then row j is skipped with a "Row j: Email already exists" error, at most one
customer with that email is created, and — when no row before i bears the
email — exactly one is (row i). The original claim's "exactly one of the two
succeeds with at least one such error" fails when the earlier duplicate row
is itself invalid (see the counterexample) and when three or more rows share
the email. -/
theorem C2_amended_bulk_partition_and_batch_uniqueness (db : DB) (now : Nat)
    (pre mid post : List CustomerInput) (ri rj : CustomerInput)
    (hdb : db.emailExists ri.email = false)
    (hsame : rj.email = ri.email)
    (hri : rowOtherwiseValid ri = true) :
    (∀ (db0 : DB) (rows : List CustomerInput) (idx now0 : Nat),
      (BulkCreateCustomers.go db0 rows idx now0).2.1.length +
        (BulkCreateCustomers.go db0 rows idx now0).2.2.length = rows.length) ∧
    s!"Row {pre.length + mid.length + 2}: Email already exists" ∈
      (BulkCreateCustomers.mutate db (pre ++ ri :: mid ++ rj :: post) now).1.errors ∧
    ((BulkCreateCustomers.mutate db (pre ++ ri :: mid ++ rj :: post) now).1.customers.filter
      (fun c => c.email == ri.email)).length ≤ 1 ∧
    ((∀ r ∈ pre, r.email ≠ ri.email) →
      ((BulkCreateCustomers.mutate db (pre ++ ri :: mid ++ rj :: post) now).1.customers.filter
        (fun c => c.email == ri.email)).length = 1) := by
  have herr : (BulkCreateCustomers.mutate db (pre ++ ri :: mid ++ rj :: post) now).1.errors =
      (((BulkCreateCustomers.go db (pre ++ ri :: mid ++ rj :: post) 1 now).2.2).map Prod.snd).flatten := rfl
  have hcus : (BulkCreateCustomers.mutate db (pre ++ ri :: mid ++ rj :: post) now).1.customers =
      (BulkCreateCustomers.go db (pre ++ ri :: mid ++ rj :: post) 1 now).2.1 := rfl
  have hiB : 1 + (pre ++ ri :: mid).length = pre.length + mid.length + 2 := by
    simp [List.length_append, List.length_cons]
    omega
  have hA : (BulkCreateCustomers.go db (pre ++ ri :: mid) 1 now).1 =
      (BulkCreateCustomers.go (BulkCreateCustomers.go db pre 1 now).1 (ri :: mid)
        (1 + pre.length) now).1 := by
    rw [bulk_go_append]
  have hmailA : ((BulkCreateCustomers.go db (pre ++ ri :: mid) 1 now).1).emailExists ri.email = true := by
    rw [hA]
    exact bulk_go_valid_head_email ri mid (BulkCreateCustomers.go db pre 1 now).1 (1 + pre.length) now hri
  have hmailArj : ((BulkCreateCustomers.go db (pre ++ ri :: mid) 1 now).1).emailExists rj.email = true := by
    rw [hsame]
    exact hmailA
  have hesplit : (BulkCreateCustomers.go db (pre ++ ri :: mid ++ rj :: post) 1 now).2.2 =
      (BulkCreateCustomers.go db (pre ++ ri :: mid) 1 now).2.2 ++
        (BulkCreateCustomers.go (BulkCreateCustomers.go db (pre ++ ri :: mid) 1 now).1 (rj :: post)
          (1 + (pre ++ ri :: mid).length) now).2.2 := by
    rw [bulk_go_append]
  obtain ⟨hrep, hmsg, -⟩ := bulk_go_dup_head_reported rj post
    (BulkCreateCustomers.go db (pre ++ ri :: mid) 1 now).1 (1 + (pre ++ ri :: mid).length) now hmailArj
  refine ⟨fun db0 rows idx now0 => bulk_go_count rows db0 idx now0, ?_, ?_, ?_⟩
  · rw [herr, ← hiB, hesplit]
    rw [List.mem_flatten]
    refine ⟨bulkRowErrors (BulkCreateCustomers.go db (pre ++ ri :: mid) 1 now).1
      (1 + (pre ++ ri :: mid).length) rj, ?_, hmsg⟩
    rw [List.map_append]
    exact List.mem_append_right _ (List.mem_map_of_mem Prod.snd hrep)
  · rw [hcus]
    exact length_filter_email_le_one (bulk_go_created_emails (pre ++ ri :: mid ++ rj :: post) db 1 now).2
  · intro hp
    have hfresh : ((BulkCreateCustomers.go db pre 1 now).1).emailExists ri.email = false :=
      bulk_go_email_fresh pre db 1 now ri.email hdb hp
    rcases rowOtherwiseValid_components ri hri with ⟨hv1, hv2, hv3⟩
    have hE : (bulkRowErrors (BulkCreateCustomers.go db pre 1 now).1 (1 + pre.length) ri).isEmpty = true :=
      (bulkRowErrors_isEmpty_iff _ _ _).mpr ⟨hfresh, hv1, hv2, hv3⟩
    have hassoc : pre ++ ri :: mid ++ rj :: post = pre ++ (ri :: (mid ++ rj :: post)) := by
      simp
    have hcsplit : (BulkCreateCustomers.go db (pre ++ ri :: mid ++ rj :: post) 1 now).2.1 =
        (BulkCreateCustomers.go db pre 1 now).2.1 ++
          (BulkCreateCustomers.go (BulkCreateCustomers.go db pre 1 now).1 (ri :: (mid ++ rj :: post))
            (1 + pre.length) now).2.1 := by
      rw [hassoc, bulk_go_append]
    have hhead : (BulkCreateCustomers.go (BulkCreateCustomers.go db pre 1 now).1 (ri :: (mid ++ rj :: post))
        (1 + pre.length) now).2.1 =
        ((BulkCreateCustomers.go db pre 1 now).1.customerCreate ri.name ri.email (ri.phone.getD "") now).2 ::
          (BulkCreateCustomers.go
            ((BulkCreateCustomers.go db pre 1 now).1.customerCreate ri.name ri.email (ri.phone.getD "") now).1
            (mid ++ rj :: post) (1 + pre.length + 1) now).2.1 := by
      simp only [BulkCreateCustomers.go, hE, if_true]
    have hc0email : ((BulkCreateCustomers.go db pre 1 now).1.customerCreate ri.name ri.email
        (ri.phone.getD "") now).2.email = ri.email := rfl
    have hc0mem : ((BulkCreateCustomers.go db pre 1 now).1.customerCreate ri.name ri.email
        (ri.phone.getD "") now).2 ∈
        (BulkCreateCustomers.mutate db (pre ++ ri :: mid ++ rj :: post) now).1.customers := by
      rw [hcus, hcsplit, hhead]
      exact List.mem_append_right _ (List.mem_cons_self _ _)
    have hfmem : ((BulkCreateCustomers.go db pre 1 now).1.customerCreate ri.name ri.email
        (ri.phone.getD "") now).2 ∈
        (BulkCreateCustomers.mutate db (pre ++ ri :: mid ++ rj :: post) now).1.customers.filter
          (fun c => c.email == ri.email) := by
      rw [List.mem_filter]
      exact ⟨hc0mem, by rw [hc0email]; simp⟩
    have hge : 0 < ((BulkCreateCustomers.mutate db (pre ++ ri :: mid ++ rj :: post) now).1.customers.filter
        (fun c => c.email == ri.email)).length :=
      List.length_pos.mpr (List.ne_nil_of_mem hfmem)
    have hle : ((BulkCreateCustomers.mutate db (pre ++ ri :: mid ++ rj :: post) now).1.customers.filter
        (fun c => c.email == ri.email)).length ≤ 1 := by
      rw [hcus]
      exact length_filter_email_le_one (bulk_go_created_emails (pre ++ ri :: mid ++ rj :: post) db 1 now).2
    omega

/-- Claim C2 witness: the amended statement at the concrete batch of two
otherwise-valid rows sharing a fresh email — the first succeeds, the second
yields "Row 2: Email already exists". -/
theorem C2_amended_witness :
    (∀ (db0 : DB) (rows : List CustomerInput) (idx now0 : Nat),
      (BulkCreateCustomers.go db0 rows idx now0).2.1.length +
        (BulkCreateCustomers.go db0 rows idx now0).2.2.length = rows.length) ∧
    "Row 2: Email already exists" ∈
      (BulkCreateCustomers.mutate emptyDB
        [{ name := "A", email := "e@x.com", phone := none },
         { name := "B", email := "e@x.com", phone := none }] 5).1.errors ∧
    ((BulkCreateCustomers.mutate emptyDB
        [{ name := "A", email := "e@x.com", phone := none },
         { name := "B", email := "e@x.com", phone := none }] 5).1.customers.filter
      (fun c => c.email == "e@x.com")).length ≤ 1 ∧
    ((∀ r ∈ ([] : List CustomerInput), r.email ≠ "e@x.com") →
      ((BulkCreateCustomers.mutate emptyDB
          [{ name := "A", email := "e@x.com", phone := none },
           { name := "B", email := "e@x.com", phone := none }] 5).1.customers.filter
        (fun c => c.email == "e@x.com")).length = 1) :=
  C2_amended_bulk_partition_and_batch_uniqueness emptyDB 5 [] [] []
    { name := "A", email := "e@x.com", phone := none }
    { name := "B", email := "e@x.com", phone := none } rfl rfl rfl
